import Mathlib

/-!
Verification of `music-collection-utils` (`src/main.py`) against its
natural-language specification.  The Python program is shallowly embedded:
filesystem paths are lists of components, the filesystem is a tree of
entries (each file carrying the answers of the external MIME-guesser and
tag-extractor collaborators), Python `str.format` templates are parsed and
rendered by an executable renderer, and each planner is a pure function
from the tree to a list of operations.
-/

set_option maxRecDepth 4096

namespace MusicUtils

/-- Filesystem paths are modelled as lists of name components
(`pathlib.Path` relative to the filesystem root). -/
abbrev FsPath := List String

/-- String form of a path (`str(Path)`), used when a `Path` value reaches
`str.format`. -/
def pathStr (p : FsPath) : String := String.intercalate "/" p

/-- `OperationType` from `src/main.py`: the kind of a deferred mutation. -/
inductive OperationType where
  | Rename
  | Remove
  | Copy
deriving DecidableEq, Repr

/-- `Operation` from `src/main.py`: an immutable description of one
filesystem mutation; `dst` is `none` for Remove operations. -/
structure Operation where
  op : OperationType
  src : FsPath
  dst : Option FsPath := none
deriving DecidableEq, Repr

/-- Tag mappings returned by the metadata extractor (`mutagen`): each tag
key maps to a list of string values. -/
abbrev Tags := List (String × List String)

mutual
/-- One directory entry of the modelled filesystem.  A file carries the
responses of the two external collaborators for that file: the MIME type
`mimetypes.guess_type` would report (none = unknown) and the tag mapping
`mutagen.File` would return (none = not a recognized audio container,
i.e. a falsy result). -/
inductive FEntry where
  | dirE (name : String) (entries : FEntries)
  | fileE (name : String) (mime : Option String) (tag : Option Tags)
/-- The ordered entries of one directory, as a cons list of its own
(kept mutually inductive with `FEntry` so that recursion over the tree
is structural). -/
inductive FEntries where
  | nil
  | cons (e : FEntry) (rest : FEntries)
end

/-- Build directory entries from a plain list. -/
def entriesOf : List FEntry → FEntries
  | [] => .nil
  | e :: es => .cons e (entriesOf es)

/-- The entries of a directory as a plain list. -/
def FEntries.toList : FEntries → List FEntry
  | .nil => []
  | .cons e rest => e :: rest.toList

/-- Find the entries of an immediate subdirectory by name. -/
def findDir : FEntries → String → Option FEntries
  | .nil, _ => none
  | .cons (.dirE m es2) rest, n => if m = n then some es2 else findDir rest n
  | .cons (.fileE _ _ _) rest, n => findDir rest n

/-- Navigate the filesystem tree to the directory at path `p`
(none when no such directory exists). -/
def fsEntriesAt : FEntries → FsPath → Option FEntries
  | es, [] => some es
  | es, n :: rest =>
    match findDir es n with
    | some es2 => fsEntriesAt es2 rest
    | none => none

/-- Directory existence test used by `AudioDirectory.load`
(`self.path.exists()` for a directory path). -/
def fsDirExists (fs : FEntries) (p : FsPath) : Bool :=
  (fsEntriesAt fs p).isSome

/-- Name of an entry. -/
def entryName : FEntry → String
  | .dirE n _ => n
  | .fileE n _ _ => n

/-- `Path.exists()` of the filesystem provider: true when `p` names a
directory or a file of the modelled tree. -/
def fsPathExists (fs : FEntries) (p : FsPath) : Bool :=
  (fsEntriesAt fs p).isSome ||
    (match p.getLast? with
     | some n =>
       match fsEntriesAt fs p.dropLast with
       | some es => es.toList.any (fun e => entryName e = n)
       | none => false
     | none => false)

/-- The literal back-left brace character of Python format strings. -/
def lbrace : Char := Char.ofNat 123

/-- The literal back-right brace character of Python format strings. -/
def rbrace : Char := Char.ofNat 125

/-- Errors surfaced while resolving or rendering a format string:
Python's `KeyError`, `AttributeError` and `ValueError`. -/
inductive RErr where
  | keyError
  | attrError
  | valueError
deriving DecidableEq, Repr

/-- One parsed item of a Python format string: a literal piece, or a
replacement field with its name and format spec. -/
inductive TItem where
  | lit (s : String)
  | fld (name : String) (spec : String)
deriving DecidableEq, Repr

/-- Parser state for format strings: in literal text, or inside a
replacement field accumulating its characters. -/
inductive PMode where
  | text
  | inField (acc : List Char)

/-- Field name of a replacement field body: the part before the first
colon. -/
def fieldNameOf (acc : List Char) : String :=
  String.mk (acc.takeWhile (fun c => c ≠ ':'))

/-- Format spec of a replacement field body: the part after the first
colon (empty when there is none). -/
def fieldSpecOf (acc : List Char) : String :=
  String.mk ((acc.dropWhile (fun c => c ≠ ':')).drop 1)

/-- Parse a Python format string into literal and field items; `none` on
an unbalanced brace (Python raises `ValueError`). -/
def parseFmtGo : PMode → List Char → Option (List TItem)
  | .text, [] => some []
  | .text, c :: rest =>
    if c = lbrace then
      match rest with
      | c2 :: rest2 =>
        if c2 = lbrace then
          (parseFmtGo .text rest2).map (fun ts => .lit (String.mk [lbrace]) :: ts)
        else
          parseFmtGo (.inField []) (c2 :: rest2)
      | [] => none
    else if c = rbrace then
      match rest with
      | c2 :: rest2 =>
        if c2 = rbrace then
          (parseFmtGo .text rest2).map (fun ts => .lit (String.mk [rbrace]) :: ts)
        else none
      | [] => none
    else
      (parseFmtGo .text rest).map (fun ts => .lit (String.mk [c]) :: ts)
  | .inField _, [] => none
  | .inField acc, c :: rest =>
    if c = rbrace then
      (parseFmtGo .text rest).map (fun ts => .fld (fieldNameOf acc) (fieldSpecOf acc) :: ts)
    else
      parseFmtGo (.inField (acc ++ [c])) rest

/-- Alignment characters of a Python format spec. -/
def isAlign (c : Char) : Bool :=
  c = '<' || c = '>' || c = '^' || c = '='

/-- Numeric value of a digit sequence (0 when empty), used for the
width of a format spec. -/
def digitsToNat (cs : List Char) : Nat :=
  cs.foldl (fun acc c => acc * 10 + (c.toNat - 48)) 0

/-- Python `str.startswith`. -/
def startswith (s pre : String) : Bool :=
  pre.toList.isPrefixOf s.toList

/-- Split a character list at every slash (the semantics of
`"...".split("/")`, used when `Path.joinpath` receives a
slash-containing name). -/
def splitSlashGo (cur : List Char) : List Char → List String
  | [] => [String.mk cur]
  | c :: rest =>
    if c = '/' then String.mk cur :: splitSlashGo [] rest
    else splitSlashGo (cur ++ [c]) rest

/-- Apply a Python format spec (fill / align / zero-flag / width subset,
which covers the specs this program uses, e.g. `>02`) to a string value. -/
def applySpec (spec v : String) : String :=
  if spec = "" then v
  else
    let cs := spec.toList
    let p1 : Option Char × Char × List Char :=
      match cs with
      | a :: b :: t =>
        if isAlign b then (some a, b, t)
        else if isAlign a then (none, a, b :: t)
        else (none, '<', cs)
      | [a] => if isAlign a then (none, a, []) else (none, '<', cs)
      | [] => (none, '<', [])
    let fill0 := p1.1
    let align := p1.2.1
    let rest0 := p1.2.2
    let fill1 : Option Char × List Char :=
      match rest0 with
      | '0' :: t => (some (fill0.getD '0'), t)
      | _ => (fill0, rest0)
    let width := digitsToNat (fill1.2.takeWhile Char.isDigit)
    let fill := fill1.1.getD ' '
    if width ≤ v.length then v
    else
      let pad := String.mk (List.replicate (width - v.length) fill)
      if align = '>' then pad ++ v
      else if align = '^' then
        let l := (width - v.length) / 2
        String.mk (List.replicate l fill) ++ v ++
          String.mk (List.replicate (width - v.length - l) fill)
      else v ++ pad

/-- Render a parsed format string against a field resolver
(the semantics of `str.format_map`). -/
def renderTokens (resolve : String → Except RErr String) : List TItem → Except RErr String
  | [] => .ok ""
  | .lit s :: rest =>
    match renderTokens resolve rest with
    | .ok t => .ok (s ++ t)
    | .error e => .error e
  | .fld n sp :: rest =>
    match resolve n with
    | .ok v =>
      match renderTokens resolve rest with
      | .ok t => .ok (applySpec sp v ++ t)
      | .error e => .error e
    | .error e => .error e

/-- `fmt.format_map(m)`: parse the format string and render it against
the resolver `m`. -/
def format_map (fmt : String) (resolve : String → Except RErr String) : Except RErr String :=
  match parseFmtGo .text fmt.toList with
  | some ts => renderTokens resolve ts
  | none => .error .valueError

/-- The external MIME-guesser collaborator's `mimetypes.guess_extension`,
modelled by its contract as a fixed mime-to-extension table. -/
def guess_extension (mime : String) : Option String :=
  if mime = "audio/mpeg" then some ".mp3"
  else if mime = "audio/flac" then some ".flac"
  else if mime = "audio/x-wav" then some ".wav"
  else if mime = "audio/x-mpegurl" then some ".m3u"
  else none

/-- `AudioMediaFile.get_tag`: first value of the tag's value list when
that list is truthy (non-empty), else `None`. -/
def get_tag (tag : Tags) (key : String) : Option String :=
  match tag.lookup key with
  | some (v :: _) => some v
  | some [] => none
  | none => none

/-- The path-node hierarchy of `src/main.py` as a closed sum:
`AudioMediaFile`, `PlaylistFile`, `OtherTypeFile` and `AudioDirectory`
(the latter viewed only through its `AbstractPath` capability here; its
loading state is modelled separately by `DirState`). -/
inductive PNode where
  | media (path : FsPath) (mime_type : String) (tag : Tags)
  | playlist (path : FsPath) (mime_type : String)
  | other (path : FsPath) (mime_type : String)
  | dir (path : FsPath)
deriving DecidableEq, Repr

/-- The `path` field shared by all `AbstractPath` subclasses. -/
def pnodePath : PNode → FsPath
  | .media p _ _ => p
  | .playlist p _ => p
  | .other p _ => p
  | .dir p => p

/-- Python `getattr(self, key)` on a path node, restricted to the data
attributes and properties a template can reference.  Outer `none` is
`AttributeError`; `some none` is an attribute whose value is `None`
(e.g. a missing tag); methods and dunder attributes are omitted since no
template of the program references them. -/
def nodeGetattr : PNode → String → Option (Option String)
  | .media p m tg, k =>
    if k = "path" then some (some (pathStr p))
    else if k = "mime_type" then some (some m)
    else if k = "ext" then some (guess_extension m)
    else if k = "album" then some (get_tag tg "album")
    else if k = "albumartist" then some (get_tag tg "albumartist")
    else if k = "title" then some (get_tag tg "title")
    else if k = "tracknumber" then some (get_tag tg "tracknumber")
    else none
  | .playlist p m, k =>
    if k = "path" then some (some (pathStr p))
    else if k = "mime_type" then some (some m)
    else none
  | .other p m, k =>
    if k = "path" then some (some (pathStr p))
    else if k = "mime_type" then some (some m)
    else none
  | .dir p, k =>
    if k = "path" then some (some (pathStr p))
    else none

/-- `AbstractPath.__getitem__`: return `getattr(self, key)` when that
attribute exists and is truthy; when the attribute exists but is falsy
(`None` or the empty string) fall through to the (always empty) dict
base, raising `KeyError`; a missing attribute raises `AttributeError`. -/
def nodeGetItem (n : PNode) (k : String) : Except RErr String :=
  match nodeGetattr n k with
  | some (some s) => if s = "" then .error .keyError else .ok s
  | some none => .error .keyError
  | none => .error .attrError

/-- `ChainMap(params, self)` lookup as used by
`AbstractPath.make_rename_operation`: the keyword-parameter dict is
consulted first; on `KeyError` the node itself is consulted via
`__getitem__`. -/
def chainResolve (params : List (String × String)) (n : PNode) (k : String) :
    Except RErr String :=
  match params.lookup k with
  | some v => .ok v
  | none => nodeGetItem n k

/-- `Path.joinpath(name)` for a rendered name: slash-separated pieces of
the name become path components (empty pieces, as for an empty name,
are dropped, as `pathlib` does). -/
def joinName (p : FsPath) (name : String) : FsPath :=
  p ++ (splitSlashGo [] name.toList).filter (fun s => s ≠ "")

/-- `AbstractPath.make_rename_operation`: render the name format against
`ChainMap(params, self)`, join the parent of the node's path with the
new name, and return a Rename operation unless the new path equals the
node's path.  Rendering errors propagate.  Note the source contains no
override of this method in any subclass (`PlaylistFile` defines a
method named `rename` instead, which no caller invokes). -/
def make_rename_operation (n : PNode) (name_format : String)
    (params : List (String × String)) : Except RErr (Option Operation) :=
  match format_map name_format (chainResolve params n) with
  | .ok new_name =>
    let new_path := joinName (pnodePath n).dropLast new_name
    if pnodePath n ≠ new_path then
      .ok (some { op := .Rename, src := pnodePath n, dst := some new_path })
    else
      .ok none
  | .error e => .error e

/-- `AbstractPath.make_copy_operation`: a Copy operation from the node's
path to the supplied destination. -/
def make_copy_operation (n : PNode) (dst : FsPath) : Operation :=
  { op := .Copy, src := pnodePath n, dst := some dst }

/-- `AbstractPath.make_remove_operation`: a Remove operation for the
node's own path. -/
def make_remove_operation (n : PNode) : Operation :=
  { op := .Remove, src := pnodePath n }

/-- `AbstractPath.exists`: the method body evaluates
`self.path.exists()` but has no return statement, so the call always
evaluates to `None` (modelled as `none : Option Bool`). -/
def pnodeExists (fs : FEntries) (n : PNode) : Option Bool :=
  let _r := fsPathExists fs (pnodePath n)
  none

/-- An audio-type child of a directory (`AudioTypeFile`): either an
`AudioMediaFile` (recognized tag container) or a `PlaylistFile`
(audio MIME type, no recognizable tags). -/
inductive AudioFile where
  | media (path : FsPath) (mime_type : String) (tag : Tags)
  | playlist (path : FsPath) (mime_type : String)
deriving DecidableEq, Repr

/-- Path of an audio-type file. -/
def audioPath : AudioFile → FsPath
  | .media p _ _ => p
  | .playlist p _ => p

/-- View an audio-type file through the `AbstractPath` capability. -/
def audioToPNode : AudioFile → PNode
  | .media p m t => .media p m t
  | .playlist p m => .playlist p m

/-- A non-audio child of a directory (`OtherTypeFile`). -/
structure OtherFile where
  path : FsPath
  mime_type : String
deriving DecidableEq, Repr

/-- The audio-type children classified by `AudioDirectory.load` from the
entries of the directory at `base`, in scan order: files whose guessed
MIME type is truthy and starts with `audio/` become `AudioMediaFile`
when `mutagen.File` is truthy, else `PlaylistFile`. -/
def ownAudios (base : FsPath) (es : FEntries) : List AudioFile :=
  es.toList.filterMap fun e =>
    match e with
    | .fileE n (some m) t =>
      if startswith m "audio/" then
        match t with
        | some tg => some (.media (base ++ [n]) m tg)
        | none => some (.playlist (base ++ [n]) m)
      else none
    | .fileE _ none _ => none
    | .dirE _ _ => none

/-- The other-file children classified by `AudioDirectory.load`: files
whose guessed MIME type is unknown, empty or not `audio/`, with the MIME
type defaulted to `application/octet-stream` when falsy. -/
def ownOthers (base : FsPath) (es : FEntries) : List OtherFile :=
  es.toList.filterMap fun e =>
    match e with
    | .fileE n (some m) _ =>
      if startswith m "audio/" then none
      else some { path := base ++ [n],
                  mime_type := if m = "" then "application/octet-stream" else m }
    | .fileE n none _ =>
      some { path := base ++ [n], mime_type := "application/octet-stream" }
    | .dirE _ _ => none

/-- The subdirectory children classified by `AudioDirectory.load`, each
with its full path and its own entries. -/
def ownDirs (base : FsPath) (es : FEntries) : List (FsPath × FEntries) :=
  es.toList.filterMap fun e =>
    match e with
    | .dirE n es2 => some (base ++ [n], es2)
    | .fileE _ _ _ => none

/-- Elements contributed by the recursive branch of
`AudioDirectory.audios` (`for c in self.directories(): yield from
c.audios(True)`): for each immediate subdirectory, that subdirectory's
full recursive audio sequence (children before self). -/
def subAudios (base : FsPath) : FEntries → List AudioFile
  | .nil => []
  | .cons (.dirE n es2) rest =>
    (subAudios (base ++ [n]) es2 ++ ownAudios (base ++ [n]) es2) ++ subAudios base rest
  | .cons (.fileE _ _ _) rest => subAudios base rest

/-- `AudioDirectory.audios(releative)`: the full contents of the lazy
generator, as a list. -/
def audios (base : FsPath) (es : FEntries) (releative : Bool) : List AudioFile :=
  (if releative then subAudios base es else []) ++ ownAudios base es

/-- `AudioDirectory.albums(releative)`: the album tag of every
`AudioMediaFile` yielded by `audios`, keeping only truthy values. -/
def albums (base : FsPath) (es : FEntries) (releative : Bool) : List String :=
  (audios base es releative).filterMap fun a =>
    match a with
    | .media _ _ tg =>
      match get_tag tg "album" with
      | some s => if s = "" then none else some s
      | none => none
    | .playlist _ _ => none

/-- Short-circuiting search for the first element the recursive branch of
`audios` would yield: stops as soon as one element is found, without
building the rest of the sequence (this is what pulling a single `next`
from the generator evaluates). -/
def firstSubAudio (base : FsPath) : FEntries → Option AudioFile
  | .nil => none
  | .cons (.dirE n es2) rest =>
    match firstSubAudio (base ++ [n]) es2 with
    | some a => some a
    | none =>
      match (ownAudios (base ++ [n]) es2).head? with
      | some a => some a
      | none => firstSubAudio base rest
  | .cons (.fileE _ _ _) rest => firstSubAudio base rest

/-- The first element `next(self.audios(releative))` would pull from the
generator, computed without materializing the rest of the sequence. -/
def firstAudio (base : FsPath) (es : FEntries) (releative : Bool) : Option AudioFile :=
  match (if releative then firstSubAudio base es else none) with
  | some a => some a
  | none => (ownAudios base es).head?

/-- `AudioDirectory.audio_exists(releative)`: `True` when `next` on the
`audios` generator succeeds, `False` on `StopIteration`. -/
def audio_exists (base : FsPath) (es : FEntries) (releative : Bool) : Bool :=
  (firstAudio base es releative).isSome

/-- Elements contributed by the recursive branch of
`AudioDirectory.directories`: for each immediate subdirectory, that
subdirectory's own recursive directory sequence (its strict descendants,
descendants before the children themselves). -/
def subDirs (base : FsPath) : FEntries → List (FsPath × FEntries)
  | .nil => []
  | .cons (.dirE n es2) rest =>
    (subDirs (base ++ [n]) es2 ++ ownDirs (base ++ [n]) es2) ++ subDirs base rest
  | .cons (.fileE _ _ _) rest => subDirs base rest

/-- `AudioDirectory.directories(releative)`: the full contents of the
lazy generator, each directory given by its path and entries. -/
def directories (base : FsPath) (es : FEntries) (releative : Bool) :
    List (FsPath × FEntries) :=
  (if releative then subDirs base es else []) ++ ownDirs base es

/-- The mutable state of one `AudioDirectory` object: its path, the
private `__initilized` flag, and the three accumulated child lists.
Child `AudioDirectory` objects are appended by `load` as fresh unloaded
nodes, so each is fully determined by its path, which is what `childs`
stores. -/
structure DirState where
  path : FsPath
  initilized : Bool := false
  audios : List AudioFile := []
  others : List OtherFile := []
  childs : List FsPath := []
deriving DecidableEq, Repr

/-- `AudioDirectory(path)`: a fresh node with default (empty, unloaded)
derived state. -/
def mkAudioDirectory (p : FsPath) : DirState := { path := p }

/-- `AudioDirectory.load(reload)`: when `(path.exists() and not
__initilized) or reload`, set the flag and append the classified
entries to the three child lists; otherwise leave the state untouched.
`none` models the `FileNotFoundError` `iterdir` raises when a forced
reload hits a missing directory. -/
def load (fs : FEntries) (d : DirState) (reload : Bool) : Option DirState :=
  if (fsDirExists fs d.path && !d.initilized) || reload then
    match fsEntriesAt fs d.path with
    | some es =>
      some { d with
             initilized := true,
             audios := d.audios ++ ownAudios d.path es,
             others := d.others ++ ownOthers d.path es,
             childs := d.childs ++ (ownDirs d.path es).map (fun c => c.1) }
    | none => none
  else some d

/-- Number of directory scans (`iterdir` calls) a `load(reload)` call
attempts: one exactly when the load condition fires. -/
def loadScans (fs : FEntries) (d : DirState) (reload : Bool) : Nat :=
  if (fsDirExists fs d.path && !d.initilized) || reload then 1 else 0

/-- The `@load_required` accessor `audios()` on an `AudioDirectory`
object: trigger `load()` (no forced reload), then yield the stored list;
returns the result together with the mutated object state. -/
def audiosAcc (fs : FEntries) (d : DirState) : Option (List AudioFile × DirState) :=
  (load fs d false).map fun d2 => (d2.audios, d2)

/-- The `@load_required` accessor `others()` on an `AudioDirectory`
object. -/
def othersAcc (fs : FEntries) (d : DirState) : Option (List OtherFile × DirState) :=
  (load fs d false).map fun d2 => (d2.others, d2)

/-- The `@load_required` accessor `directories()` on an `AudioDirectory`
object. -/
def directoriesAcc (fs : FEntries) (d : DirState) : Option (List FsPath × DirState) :=
  (load fs d false).map fun d2 => (d2.childs, d2)

/-- `Path.relative_to`: strip `base` from the front of `p`; `none`
models the `ValueError` raised when `base` is not a prefix of `p`. -/
def relative_to (p base : FsPath) : Option FsPath :=
  if p.take base.length = base then some (p.drop base.length) else none

/-- The audio loop of the `rename` command's planner: for every yielded
audio entry, attempt `make_rename_operation(audio_file_format)` (with no
extra parameters) and keep the operations that are produced; a rendering
error aborts the sequence. -/
def renameAudioLoop (audio_file_format : String) :
    List AudioFile → Except RErr (List Operation)
  | [] => .ok []
  | a :: rest =>
    match make_rename_operation (audioToPNode a) audio_file_format [] with
    | .ok (some op) =>
      match renameAudioLoop audio_file_format rest with
      | .ok l => .ok (op :: l)
      | .error e => .error e
    | .ok none => renameAudioLoop audio_file_format rest
    | .error e => .error e

/-- The per-directory step of the `rename` command's planner: form the
set of the directory's own albums (`set(directory.albums())`, the
non-recursive default); when that set has exactly one element, attempt a
rename with the album format and `album` bound to the popped unique
value; otherwise produce nothing. -/
def dirRenameStep (album_format : String) (d : FsPath × FEntries) :
    Except RErr (Option Operation) :=
  match (albums d.1 d.2 false).dedup with
  | [a] => make_rename_operation (.dir d.1) album_format [("album", a)]
  | _ => .ok none

/-- The directory loop of the `rename` command's planner: apply
`dirRenameStep` to every yielded directory, keeping produced
operations. -/
def renameDirLoop (album_format : String) :
    List (FsPath × FEntries) → Except RErr (List Operation)
  | [] => .ok []
  | d :: rest =>
    match dirRenameStep album_format d with
    | .ok (some op) =>
      match renameDirLoop album_format rest with
      | .ok l => .ok (op :: l)
      | .error e => .error e
    | .ok none => renameDirLoop album_format rest
    | .error e => .error e

/-- The full operation sequence of the `rename` command's planner for
the directory at `base` with entries `es`: all audio renames, then all
directory renames, in generator order. -/
def planRenameOps (base : FsPath) (es : FEntries)
    (audio_file_format album_format : String) (releative : Bool) :
    Except RErr (List Operation) :=
  match renameAudioLoop audio_file_format (audios base es releative) with
  | .ok aops =>
    match renameDirLoop album_format (directories base es releative) with
    | .ok dops => .ok (aops ++ dops)
    | .error e => .error e
  | .error e => .error e

/-- The `rename` command entry point: when either supplied format string
is empty the command prints a message and returns before any planning or
execution (`none`); otherwise it plans (and then executes) the operation
sequence for `AudioDirectory(path)` — a path that does not exist on the
filesystem stays unloaded, so its generators yield nothing. -/
def renameCommand (fs : FEntries) (path : FsPath)
    (audio_file_format album_format : String) (releative : Bool) :
    Option (Except RErr (List Operation)) :=
  if audio_file_format = "" || album_format = "" then none
  else
    some (planRenameOps path ((fsEntriesAt fs path).getD .nil)
      audio_file_format album_format releative)

/-- The loop of the `clean_copy` command's planner: for every yielded
audio entry (media file or playlist alike), a Copy operation to
`dst.joinpath(a.path.relative_to(src))`. -/
def cleanCopyLoop (src dst : FsPath) : List AudioFile → Option (List Operation)
  | [] => some []
  | a :: rest =>
    match relative_to (audioPath a) src with
    | some r =>
      match cleanCopyLoop src dst rest with
      | some l => some (make_copy_operation (audioToPNode a) (dst ++ r) :: l)
      | none => none
    | none => none

/-- The full operation sequence of the `clean_copy` command's planner
for the source directory at `src` with entries `es`. -/
def planCleanCopyOps (src dst : FsPath) (es : FEntries) (releative : Bool) :
    Option (List Operation) :=
  cleanCopyLoop src dst (audios src es releative)

/-- The names of the commands registered on the click group `cli` in
`src/main.py`: the `rename` and `clean_copy` functions (the latter
exposed as `clean-copy`).  No other command is registered. -/
def cliCommands : List String := ["rename", "clean-copy"]

/-- Destination the specification's words assign to an `AudioMediaFile`
in the clean-copy planner: `destinationRoot` joined with the rendered
template `"\x7balbum\x7d/\x7btracknumber:>02\x7d-\x7btitle\x7d\x7bext\x7d"`.
This definition follows the spec, not the source, and exists only to be
compared against the implemented planner. -/
def specCleanCopyMediaDst (dstRoot : FsPath) (a : AudioFile) : Option FsPath :=
  match format_map "\x7balbum\x7d/\x7btracknumber:>02\x7d-\x7btitle\x7d\x7bext\x7d"
      (chainResolve [] (audioToPNode a)) with
  | .ok s => some (joinName dstRoot s)
  | .error _ => none

/-! Helper lemmas. -/

/-- The `AbstractPath` view of an audio file sits at the file's path. -/
theorem pnodePath_audioToPNode (a : AudioFile) : pnodePath (audioToPNode a) = audioPath a := by
  cases a <;> rfl

/-- The short-circuiting first-element search over the recursive branch
of `audios` computes exactly the head of the full sequence. -/
theorem firstSubAudio_eq_head (base : FsPath) :
    (es : FEntries) → firstSubAudio base es = (subAudios base es).head?
  | .nil => rfl
  | .cons (.dirE n es2) rest => by
    have h1 := firstSubAudio_eq_head (base ++ [n]) es2
    have h2 := firstSubAudio_eq_head base rest
    simp only [firstSubAudio, subAudios, List.head?_append, h1, h2]
    cases (subAudios (base ++ [n]) es2).head? with
    | some a => rfl
    | none =>
      cases (ownAudios (base ++ [n]) es2).head? with
      | some a => rfl
      | none => rfl
  | .cons (.fileE n m t) rest => by
    simpa only [firstSubAudio, subAudios] using firstSubAudio_eq_head base rest

/-- Every audio file classified from the entries of `base` lies directly
under `base`. -/
theorem ownAudios_path {base : FsPath} {es : FEntries} {a : AudioFile}
    (h : a ∈ ownAudios base es) : ∃ s, audioPath a = base ++ s := by
  unfold ownAudios at h
  rcases List.mem_filterMap.mp h with ⟨e, -, he⟩
  cases e with
  | dirE n es2 => simp at he
  | fileE n m t =>
    cases m with
    | none => simp at he
    | some mm =>
      dsimp only at he
      by_cases hs : startswith mm "audio/"
      · rw [if_pos hs] at he
        cases t with
        | some tg =>
          injection he with he2
          exact ⟨[n], by subst he2; rfl⟩
        | none =>
          injection he with he2
          exact ⟨[n], by subst he2; rfl⟩
      · rw [if_neg hs] at he
        cases he

/-- Every audio file reached through the recursive branch of `audios`
lies below `base`. -/
theorem subAudios_path {a : AudioFile} :
    ∀ (base : FsPath) (es : FEntries), a ∈ subAudios base es → ∃ s, audioPath a = base ++ s
  | base, .nil => by
    intro h
    exact absurd h (by simp [subAudios])
  | base, .cons (.dirE n es2) rest => by
    intro h
    simp only [subAudios, List.mem_append] at h
    rcases h with (h | h) | h
    · rcases subAudios_path (base ++ [n]) es2 h with ⟨s, hs⟩
      exact ⟨n :: s, by simpa using hs⟩
    · rcases ownAudios_path h with ⟨s, hs⟩
      exact ⟨n :: s, by simpa using hs⟩
    · exact subAudios_path base rest h
  | base, .cons (.fileE n m t) rest => by
    intro h
    simp only [subAudios] at h
    exact subAudios_path base rest h

/-- Every audio file yielded by `audios` lies below the directory it was
enumerated from. -/
theorem audios_path {a : AudioFile} (base : FsPath) (es : FEntries) (releative : Bool)
    (h : a ∈ audios base es releative) : ∃ s, audioPath a = base ++ s := by
  unfold audios at h
  rcases List.mem_append.mp h with h | h
  · cases releative with
    | false => simp at h
    | true => exact subAudios_path base es (by simpa using h)
  · exact ownAudios_path h

/-- On a list of audio files that all lie below `src`, the clean-copy
loop succeeds and copies each entry to its path relative to `src`,
re-rooted at `dst`. -/
theorem cleanCopyLoop_eq (src dst : FsPath) :
    ∀ (l : List AudioFile), (∀ a ∈ l, ∃ s, audioPath a = src ++ s) →
      cleanCopyLoop src dst l =
        some (l.map fun a =>
          { op := .Copy, src := audioPath a,
            dst := some (dst ++ (audioPath a).drop src.length) })
  | [], _ => rfl
  | a :: rest, h => by
    rcases h a (by simp) with ⟨s, hs⟩
    have hrel : relative_to (audioPath a) src = some ((audioPath a).drop src.length) := by
      rw [hs]
      simp [relative_to, List.take_left, List.drop_left]
    have ih := cleanCopyLoop_eq src dst rest (fun b hb => h b (List.mem_cons_of_mem _ hb))
    simp only [cleanCopyLoop, hrel, ih, List.map_cons]
    simp [make_copy_operation, pnodePath_audioToPNode]

/-! Claim theorems. -/

/-- C1 (counterexample): the click group of `src/main.py` registers no
`cleanup` command — the claimed cleanup entry point (and hence its
planner) does not exist in the program. -/
theorem c1_no_cleanup_command : "cleanup" ∉ cliCommands := by decide

/-- C1 (amended): the program's command surface consists of exactly the
`rename` and `clean-copy` entry points; there is no cleanup command. -/
theorem c1_command_surface :
    cliCommands = ["rename", "clean-copy"] ∧ "cleanup" ∉ cliCommands :=
  ⟨rfl, by decide⟩

/-- C2 (counterexample): on a source tree holding one media file with
album `Alb`, track number `3` and title `T`, the clean-copy planner
copies the file to its structure-preserving relative path
`out/Artist/song.mp3`, not to the template-rendered destination
`out/Alb/03-T.mp3` the claim requires. -/
theorem c2_media_copy_counterexample :
    planCleanCopyOps ["lib"] ["out"]
        (entriesOf [.dirE "Artist" (entriesOf [.fileE "song.mp3" (some "audio/mpeg")
          (some [("album", ["Alb"]), ("tracknumber", ["3"]), ("title", ["T"])])])]) true =
      some [{ op := .Copy, src := ["lib", "Artist", "song.mp3"],
              dst := some ["out", "Artist", "song.mp3"] }] ∧
    specCleanCopyMediaDst ["out"]
        (.media ["lib", "Artist", "song.mp3"] "audio/mpeg"
          [("album", ["Alb"]), ("tracknumber", ["3"]), ("title", ["T"])]) =
      some ["out", "Alb", "03-T.mp3"] ∧
    (["out", "Artist", "song.mp3"] : FsPath) ≠ ["out", "Alb", "03-T.mp3"] :=
  ⟨rfl, rfl, by decide⟩

/-- C2 (amended): the clean-copy planner treats `AudioMediaFile` and
`PlaylistFile` entries alike: every audio entry reached via
`audios(recursive)` is copied to `destinationRoot` joined with the
entry's path relative to the source root; no template is rendered. -/
theorem c2_clean_copy_structure_preserving (src dst : FsPath) (es : FEntries)
    (releative : Bool) :
    planCleanCopyOps src dst es releative =
      some ((audios src es releative).map fun a =>
        { op := .Copy, src := audioPath a,
          dst := some (dst ++ (audioPath a).drop src.length) }) :=
  cleanCopyLoop_eq src dst _ (fun _ ha => audios_path src es releative ha)

/-- C3: evaluation of the code at the failing input — calling
`make_rename_operation` on the `PlaylistFile` at `lib/list.m3u` with the
template `pl` returns a Rename operation, because `PlaylistFile`
overrides a method named `rename` that no caller invokes, leaving the
inherited `make_rename_operation` in effect. -/
theorem c3_playlist_rename_not_none :
    make_rename_operation (.playlist ["lib", "list.m3u"] "audio/x-mpegurl") "pl" [] =
      .ok (some { op := .Rename, src := ["lib", "list.m3u"], dst := some ["lib", "pl"] }) :=
  rfl

/-- C4 (counterexample): on a media file whose own `title` attribute is
`A`, rendering the template consisting of the `title` field with the
parameter mapping binding `title` to `B` yields `B` — the externally
supplied parameter wins over the node's derived attribute, contradicting
the claimed node-first precedence. -/
theorem c4_params_win_counterexample :
    nodeGetItem (.media ["lib", "s.mp3"] "audio/mpeg" [("title", ["A"])]) "title" = .ok "A" ∧
    format_map "\x7btitle\x7d"
        (chainResolve [("title", "B")] (.media ["lib", "s.mp3"] "audio/mpeg" [("title", ["A"])])) =
      .ok "B" ∧
    ("B" : String) ≠ "A" :=
  ⟨rfl, rfl, by decide⟩

/-- C4 (amended): field resolution during template rendering consults
the externally supplied parameter mapping first (`ChainMap(params,
self)`); the node's own attributes are consulted only when the mapping
lacks the field, so when both define a field the parameter mapping's
value wins; if neither supplies the field, resolution fails with the
node lookup's error. -/
theorem c4_chain_lookup_order (n : PNode) (params : List (String × String)) (k : String) :
    (∀ v, params.lookup k = some v → chainResolve params n k = .ok v) ∧
    (params.lookup k = none → chainResolve params n k = nodeGetItem n k) := by
  constructor
  · intro v hv
    simp [chainResolve, hv]
  · intro hv
    simp [chainResolve, hv]

/-- C4 (witness): the amended precedence applied at a concrete input. -/
theorem c4_chain_lookup_order_witness :
    chainResolve [("title", "B")] (.media ["w"] "audio/mpeg" [("title", ["A"])]) "title" =
      .ok "B" :=
  (c4_chain_lookup_order (.media ["w"] "audio/mpeg" [("title", ["A"])])
    [("title", "B")] "title").1 "B" rfl

/-- C5 (counterexample): a directory `r/X` whose single media child has
the unique album `X` has an album set of size exactly one, yet the
planner's per-directory step produces no operation, because the rendered
name equals the directory's current name — refuting the claimed
"if and only if". -/
theorem c5_size_one_no_op_counterexample :
    (albums ["r", "X"]
        (entriesOf [.fileE "a.mp3" (some "audio/mpeg") (some [("album", ["X"])])]) false).dedup =
      ["X"] ∧
    dirRenameStep "\x7balbum\x7d"
        (["r", "X"], entriesOf [.fileE "a.mp3" (some "audio/mpeg") (some [("album", ["X"])])]) =
      .ok none :=
  ⟨rfl, rfl⟩

/-- C5 (amended): the per-directory step of the generalized rename
planner produces no operation whenever the set of the directory's own
direct albums does not have exactly one element; when the set is the
singleton of `a`, the step is exactly `make_rename_operation` on the
directory with `album` bound to `a` — which itself yields no operation
when the rendered path equals the directory's current path. -/
theorem c5_dir_rename_condition (album_format : String) (d : FsPath × FEntries) :
    ((albums d.1 d.2 false).dedup.length ≠ 1 → dirRenameStep album_format d = .ok none) ∧
    (∀ a, (albums d.1 d.2 false).dedup = [a] →
      dirRenameStep album_format d =
        make_rename_operation (.dir d.1) album_format [("album", a)]) := by
  constructor
  · intro h
    unfold dirRenameStep
    cases hd : (albums d.1 d.2 false).dedup with
    | nil => rfl
    | cons a t =>
      cases t with
      | nil => exact absurd (by rw [hd]; rfl) h
      | cons b t2 => rfl
  · intro a ha
    unfold dirRenameStep
    rw [ha]

/-- C5 (witness): a directory with two distinct albums (`A` and `B`)
yields no operation. -/
theorem c5_dir_rename_condition_witness :
    dirRenameStep "\x7balbum\x7d"
        (["r", "D"], entriesOf [.fileE "a.mp3" (some "audio/mpeg") (some [("album", ["A"])]),
          .fileE "b.mp3" (some "audio/mpeg") (some [("album", ["B"])])]) =
      .ok none :=
  (c5_dir_rename_condition "\x7balbum\x7d"
    (["r", "D"], entriesOf [.fileE "a.mp3" (some "audio/mpeg") (some [("album", ["A"])]),
      .fileE "b.mp3" (some "audio/mpeg") (some [("album", ["B"])])])).1 (by decide)

/-- C6: whenever template rendering succeeds with name `nm`,
`make_rename_operation` returns no operation exactly when the parent of
the source joined with `nm` equals the source path, and otherwise
returns a Rename operation from the source to that new path. -/
theorem c6_rename_noop_iff_same_path (n : PNode) (name_format : String)
    (params : List (String × String)) (nm : String)
    (h : format_map name_format (chainResolve params n) = .ok nm) :
    make_rename_operation n name_format params =
      .ok (if pnodePath n = joinName (pnodePath n).dropLast nm then none
           else some { op := .Rename, src := pnodePath n,
                       dst := some (joinName (pnodePath n).dropLast nm) }) := by
  unfold make_rename_operation
  rw [h]
  dsimp only
  by_cases hp : pnodePath n = joinName (pnodePath n).dropLast nm
  · rw [if_neg (not_not_intro hp), if_pos hp]
  · rw [if_pos hp, if_neg hp]

/-- C6 (witness): the rename contract applied at a concrete media file
whose rendered name differs from its current name. -/
theorem c6_rename_noop_iff_same_path_witness :
    make_rename_operation (.media ["d", "old.mp3"] "audio/mpeg" []) "x" [] =
      .ok (if pnodePath (PNode.media ["d", "old.mp3"] "audio/mpeg" []) =
             joinName (pnodePath (PNode.media ["d", "old.mp3"] "audio/mpeg" [])).dropLast "x"
           then none
           else some { op := .Rename,
                       src := pnodePath (PNode.media ["d", "old.mp3"] "audio/mpeg" []),
                       dst := some (joinName
                         (pnodePath (PNode.media ["d", "old.mp3"] "audio/mpeg" [])).dropLast "x") }) :=
  c6_rename_noop_iff_same_path (.media ["d", "old.mp3"] "audio/mpeg" []) "x" [] "x" rfl

/-- C7: `audio_exists(releative)` is true exactly when
`audios(releative)` yields at least one element, and the underlying
search computes exactly the head of that sequence, short-circuiting at
the first element found. -/
theorem c7_audio_exists_iff_nonempty (base : FsPath) (es : FEntries) (releative : Bool) :
    firstAudio base es releative = (audios base es releative).head? ∧
    (audio_exists base es releative = true ↔ audios base es releative ≠ []) := by
  have h : firstAudio base es releative = (audios base es releative).head? := by
    unfold firstAudio audios
    cases releative with
    | false => simp
    | true =>
      rw [if_pos rfl, if_pos rfl, firstSubAudio_eq_head, List.head?_append]
      cases (subAudios base es).head? with
      | some a => rfl
      | none => rfl
  refine ⟨h, ?_⟩
  rw [audio_exists, h]
  cases haud : audios base es releative with
  | nil => simp
  | cons a t => simp

/-- C8: a freshly constructed `AudioDirectory` has empty derived
collections and is unloaded; and after any successful `load`, a further
`load` without a forced reload performs zero directory scans and leaves
the state unchanged, so the three accessors return the same stable
results without rescanning. -/
theorem c8_load_memoized :
    (∀ p, (mkAudioDirectory p).initilized = false ∧ (mkAudioDirectory p).audios = [] ∧
          (mkAudioDirectory p).others = [] ∧ (mkAudioDirectory p).childs = []) ∧
    (∀ (fs : FEntries) (d : DirState) (r : Bool) (d2 : DirState), load fs d r = some d2 →
      load fs d2 false = some d2 ∧ loadScans fs d2 false = 0 ∧
      audiosAcc fs d2 = some (d2.audios, d2) ∧
      othersAcc fs d2 = some (d2.others, d2) ∧
      directoriesAcc fs d2 = some (d2.childs, d2)) := by
  have key : ∀ (fs : FEntries) (e : DirState),
      ((fsDirExists fs e.path && !e.initilized) || false) = false →
      load fs e false = some e ∧ loadScans fs e false = 0 ∧
      audiosAcc fs e = some (e.audios, e) ∧
      othersAcc fs e = some (e.others, e) ∧
      directoriesAcc fs e = some (e.childs, e) := by
    intro fs e he
    have hl : load fs e false = some e := by
      unfold load
      rw [he]
      simp
    refine ⟨hl, ?_, ?_, ?_, ?_⟩
    · unfold loadScans
      rw [he]
      simp
    · unfold audiosAcc
      rw [hl]
      rfl
    · unfold othersAcc
      rw [hl]
      rfl
    · unfold directoriesAcc
      rw [hl]
      rfl
  constructor
  · intro p
    exact ⟨rfl, rfl, rfl, rfl⟩
  · intro fs d r d2 h
    unfold load at h
    by_cases hc : ((fsDirExists fs d.path && !d.initilized) || r) = true
    · rw [if_pos hc] at h
      cases heq : fsEntriesAt fs d.path with
      | none =>
        rw [heq] at h
        cases h
      | some es =>
        rw [heq] at h
        injection h with h2
        subst h2
        exact key fs _ (by simp)
    · rw [if_neg hc] at h
      injection h with h2
      subst h2
      have hor := Bool.or_eq_false_iff.mp (Bool.of_not_eq_true hc)
      exact key fs d (by simp [hor.1])

/-- C8 (witness): memoization applied to the concrete loaded state of a
one-file directory. -/
theorem c8_load_memoized_witness :
    load (entriesOf [.fileE "a.mp3" (some "audio/mpeg") (some [("title", ["T"])])])
        { path := [], initilized := true,
          audios := [.media ["a.mp3"] "audio/mpeg" [("title", ["T"])]],
          others := [], childs := [] } false =
      some { path := [], initilized := true,
             audios := [.media ["a.mp3"] "audio/mpeg" [("title", ["T"])]],
             others := [], childs := [] } ∧
    loadScans (entriesOf [.fileE "a.mp3" (some "audio/mpeg") (some [("title", ["T"])])])
        { path := [], initilized := true,
          audios := [.media ["a.mp3"] "audio/mpeg" [("title", ["T"])]],
          others := [], childs := [] } false = 0 := by
  have h := c8_load_memoized.2
    (entriesOf [.fileE "a.mp3" (some "audio/mpeg") (some [("title", ["T"])])])
    (mkAudioDirectory []) false
    { path := [], initilized := true,
      audios := [.media ["a.mp3"] "audio/mpeg" [("title", ["T"])]],
      others := [], childs := [] } (by decide)
  exact ⟨h.1, h.2.1⟩

/-- C9: invoking the `rename` command with an empty audio-file format or
an empty album format aborts before any operation is planned or
executed — the command returns without building the operation sequence,
leaving the filesystem untouched. -/
theorem c9_empty_template_aborts (fs : FEntries) (path : FsPath)
    (audio_file_format album_format : String) (releative : Bool)
    (h : audio_file_format = "" ∨ album_format = "") :
    renameCommand fs path audio_file_format album_format releative = none := by
  unfold renameCommand
  rcases h with h | h <;> simp [h]

/-- C9 (witness): the abort applied with a concrete empty audio-file
format. -/
theorem c9_empty_template_aborts_witness :
    renameCommand .nil [] "" "\x7balbum\x7d" false = none :=
  c9_empty_template_aborts .nil [] "" "\x7balbum\x7d" false (Or.inl rfl)

/-- C10: the public `exists` capability of every path node computes the
underlying filesystem existence test but returns `None` regardless of
its result, so no caller can observe a path's existence through it. -/
theorem c10_exists_returns_none (fs : FEntries) (n : PNode) :
    pnodeExists fs n = none := rfl

end MusicUtils
